import Mathlib

/-!
Verification development for the KI-Voice-Agent repository.

Part 1 embeds the dashboard UI components found under `src/frontend`
(StatCard, AuthProvider, Button) as pure Lean functions over explicit
prop/state records, following the TypeScript source closely (JavaScript
truthiness of optional number/boolean props is made explicit).

Part 2 models the Real-Time Voice Conversation Orchestrator described by
the specification (CallSession state machine, ConversationEngine,
AudioFrameBus, CallSessionManager).  That code is not present in the
repository sources, so the definitions there are modelled from the spec.
-/

namespace VoiceAgent

/-! ## Frontend: StatCard (src/frontend/src/components/common/StatCard.tsx) -/

/-- Direction of the trend badge in `StatCard`. -/
inductive Trend
  | up
  | down
  deriving DecidableEq, Repr

/-- The Material icon rendered inside the trend badge. -/
inductive TrendIconKind
  | trendingUp
  | trendingDown
  deriving DecidableEq, Repr

/-- The palette colour applied to the trend badge. -/
inductive TrendColor
  | successMain
  | errorMain
  deriving DecidableEq, Repr

/-- `const trend = change && change > 0 ? 'up' : 'down'` from StatCard.tsx.
`change` is an optional number; in JavaScript `undefined` and `0` are falsy,
so the conditional takes the `'down'` branch for them. -/
def statCardTrend (change : Option Int) : Trend :=
  match change with
  | none => .down
  | some c => if c = 0 then .down else if c > 0 then .up else .down

/-- `const TrendIcon = trend === 'up' ? TrendingUp : TrendingDown`. -/
def statCardTrendIcon (trend : Trend) : TrendIconKind :=
  match trend with
  | .up => .trendingUp
  | .down => .trendingDown

/-- Colour of the `TrendBox`: `trend === 'up' ? success.main : error.main`. -/
def statCardTrendColor (trend : Trend) : TrendColor :=
  match trend with
  | .up => .successMain
  | .down => .errorMain

/-- The rendered trend badge: icon, colour and the percentage text
`Math.abs(change)`. -/
structure TrendBoxView where
  icon : TrendIconKind
  color : TrendColor
  percent : Nat
  deriving DecidableEq, Repr

/-- The trend badge is rendered only under `change !== undefined`
(StatCard.tsx line 76); its content follows lines 40-41 and 77-79. -/
def statCardTrendBox (change : Option Int) : Option TrendBoxView :=
  match change with
  | none => none
  | some c =>
      let t := statCardTrend (some c)
      some { icon := statCardTrendIcon t
             color := statCardTrendColor t
             percent := c.natAbs }

/-! ## Frontend: AuthProvider (src/frontend/src/contexts/AuthContext.tsx) -/

/-- The slice of `AuthProvider` state touched by the initial `checkAuth`
effect, plus whether `storageService.clearTokens()` was invoked. -/
structure AuthCheckOutcome where
  user : Option String
  isLoading : Bool
  tokensCleared : Bool
  deriving DecidableEq, Repr

/-- The `checkAuth` async function of `AuthProvider` (AuthContext.tsx
lines 23-35): reads the stored access token; if present, fetches the
current user, and on a thrown error clears the stored tokens; in every
path it finishes with `setIsLoading(false)`.  `fetchUser` is the outcome
of `authService.getCurrentUser()` (`Except` models the thrown error). -/
def checkAuth (storedToken : Option String)
    (fetchUser : Except String String) : AuthCheckOutcome :=
  match storedToken with
  | none => { user := none, isLoading := false, tokensCleared := false }
  | some _ =>
      match fetchUser with
      | .ok u => { user := some u, isLoading := false, tokensCleared := false }
      | .error _ => { user := none, isLoading := false, tokensCleared := true }

/-! ## Frontend: Button (src/unnamed/part_002) -/

/-- What the custom `Button` renders inside the styled MUI button. -/
inductive ButtonContent
  | spinner
  | childrenContent
  deriving DecidableEq, Repr

/-- Observable rendering of the custom `Button`. -/
structure ButtonView where
  disabled : Bool
  content : ButtonContent
  deriving DecidableEq, Repr

/-- The `Button` component (part_002 lines 26-46): passes
`disabled={disabled || loading}` to the MUI button and renders a
`CircularProgress` spinner instead of the children when `loading` is
truthy.  Both props are optional booleans; `undefined` is falsy. -/
def renderButton (loading disabled : Option Bool) : ButtonView :=
  let l := loading.getD false
  let d := disabled.getD false
  { disabled := d || l
    content := if l then .spinner else .childrenContent }

/-! ## Orchestrator data model

The Real-Time Voice Conversation Orchestrator is described by the
specification but its code is not present under the repository sources;
everything below is modelled from the spec (§2-§4.7). -/

/-- Modelled from the spec: `SessionState` of §4.3 — the orchestrator's
CallSession state machine is not in the repository sources. -/
inductive SessionState
  | connecting
  | listening
  | thinking
  | speaking
  | interrupting
  | ended
  deriving DecidableEq, Repr

/-- Modelled from the spec: the speaker of a `Turn` (§3). -/
inductive Speaker
  | caller
  | agent
  deriving DecidableEq, Repr

/-- Modelled from the spec: a `Turn` of conversation history (§3) —
speaker, text, timestamps, and the truncation mark set when a barge-in
cuts an agent utterance short (§4.3). -/
structure Turn where
  speaker : Speaker
  text : String
  startedAt : Nat
  endedAt : Nat
  truncated : Bool
  deriving DecidableEq, Repr

/-- Modelled from the spec: the interruption policy inside `AgentConfig`
(§3): barge-in enabled/disabled and the minimum sustained-speech duration
(ms) that counts as a genuine interruption. -/
structure InterruptionPolicy where
  bargeInEnabled : Bool
  minDurationMs : Nat
  deriving DecidableEq, Repr

/-- Modelled from the spec: the `AgentConfig` snapshot (§3): system
preamble (prompt template), context-window budget as a number of recent
turns, and the interruption policy. -/
structure AgentConfig where
  systemPreamble : String
  contextWindowTurns : Nat
  interruptionPolicy : InterruptionPolicy
  deriving DecidableEq, Repr

/-! ## AudioFrameBus (outbound side), modelled from spec §4.1

Outbound chunks are identified by the monotone sequence number they are
tagged with on submission; `pending` holds enqueued-but-not-yet-sent
chunks in submission order, `sent` the chunks already written to the
telephony leg. -/

/-- Modelled from the spec: outbound buffering state of the AudioFrameBus
(§4.1) — the bus code is not in the repository sources. -/
structure AudioFrameBus where
  pending : List Nat
  sent : List Nat
  nextSeq : Nat
  flushCount : Nat
  deriving DecidableEq, Repr

/-- A fresh, empty bus. -/
def AudioFrameBus.empty : AudioFrameBus :=
  { pending := [], sent := [], nextSeq := 0, flushCount := 0 }

/-- Accept an outbound audio chunk from the synthesis adapter: it is
tagged with the next sequence number and queued in submission order. -/
def AudioFrameBus.enqueue (b : AudioFrameBus) : AudioFrameBus :=
  { b with pending := b.pending ++ [b.nextSeq], nextSeq := b.nextSeq + 1 }

/-- Write the oldest enqueued chunk to the telephony leg (submission
order); a no-op when nothing is pending. -/
def AudioFrameBus.sendOne (b : AudioFrameBus) : AudioFrameBus :=
  match b.pending with
  | [] => b
  | c :: rest => { b with pending := rest, sent := b.sent ++ [c] }

/-- The flush-and-discard operation (§4.1): discards every
already-enqueued-but-not-yet-sent chunk. -/
def AudioFrameBus.flush (b : AudioFrameBus) : AudioFrameBus :=
  { b with pending := [], flushCount := b.flushCount + 1 }

/-- The operations that can reach the outbound side of the bus after a
flush: further synthesis submissions, sends to the line, more flushes. -/
inductive BusOp
  | enqueue
  | sendOne
  | flush
  deriving DecidableEq, Repr

/-- Apply one bus operation. -/
def AudioFrameBus.applyOp (b : AudioFrameBus) : BusOp → AudioFrameBus
  | .enqueue => b.enqueue
  | .sendOne => b.sendOne
  | .flush => b.flush

/-- Apply a sequence of bus operations, oldest first. -/
def AudioFrameBus.applyOps (b : AudioFrameBus) : List BusOp → AudioFrameBus
  | [] => b
  | op :: ops => (b.applyOp op).applyOps ops

/-- Well-formedness of the bus: every pending chunk carries a sequence
number below the next one to be issued. -/
def AudioFrameBus.WF (b : AudioFrameBus) : Prop :=
  ∀ c ∈ b.pending, c < b.nextSeq

/-! ## CallSession state machine, modelled from spec §4.3 -/

/-- Modelled from the spec: a state-change event pushed to the EventBus
on every transition (§4.3): prior state, new state, timestamp. -/
structure StateChange where
  prior : SessionState
  next : SessionState
  atTime : Nat
  deriving DecidableEq, Repr

/-- Modelled from the spec: the `CallSession` record (§3): identity,
current state, timestamps, ordered turn sequence, immutable config
snapshot, its AudioFrameBus, a logical clock and running metrics. -/
structure CallSession where
  callId : String
  orgId : String
  state : SessionState
  turns : List Turn
  startedAt : Nat
  endedAt : Option Nat
  config : AgentConfig
  bus : AudioFrameBus
  now : Nat
  interruptionCount : Nat
  deriving Repr

/-- A freshly created session, in `connecting`, with empty history. -/
def CallSession.create (callId orgId : String) (cfg : AgentConfig) : CallSession :=
  { callId := callId, orgId := orgId, state := .connecting, turns := []
    startedAt := 0, endedAt := none, config := cfg
    bus := AudioFrameBus.empty, now := 0, interruptionCount := 0 }

/-- Modelled from the spec: the events a session's single-owner queue
consumes (§4.3): readiness confirmation, transcript events (partial or
final), the voice-activity detector's sustained-speech report, the
reasoning capability returning, playback completion, and hangup. -/
inductive SessionEvent
  | ready
  | transcript (text : String) (isFinal : Bool)
  | vadSustained (durationMs : Nat)
  | engineDone
  | playbackDone
  | hangup
  deriving DecidableEq, Repr

/-- Modelled from the spec: the deterministic stub capabilities wired in
for testing (§8): a reasoning stub mapping a prompt to an utterance. -/
structure Capabilities where
  reason : String → String

/-- Render one turn for the prompt, tagging the speaker. -/
def renderTurn (t : Turn) : String :=
  match t.speaker with
  | .caller => "caller: " ++ t.text ++ "\n"
  | .agent => "agent: " ++ t.text ++ "\n"

/-- Truncate the history to its most recent `n` turns (§4.4). -/
def truncateHistory (n : Nat) (h : List Turn) : List Turn :=
  h.drop (h.length - n)

/-- Modelled from the spec: ConversationEngine's deterministic prompt
construction (§4.4): the fixed system preamble from config followed by
the history truncated to the most recent N turns. -/
def buildPrompt (cfg : AgentConfig) (history : List Turn) : String :=
  cfg.systemPreamble ++
    String.join ((truncateHistory cfg.contextWindowTurns history).map renderTurn)

/-- Modelled from the spec: `ConversationEngine.respond` (§4.4) with a
deterministic stub reasoning capability: build the prompt from history
and config, invoke the capability, return the utterance text. -/
def ConversationEngine.respond (caps : Capabilities) (cfg : AgentConfig)
    (history : List Turn) : String :=
  caps.reason (buildPrompt cfg history)

/-- Mark the last turn of the history as truncated when it is an agent
turn (the in-progress agent `Turn` of §4.3's interrupting transition). -/
def markLastAgentTruncated : List Turn → List Turn
  | [] => []
  | [t] =>
      match t.speaker with
      | .agent => [{ t with truncated := true }]
      | .caller => [t]
  | t :: t2 :: rest => t :: markLastAgentTruncated (t2 :: rest)

/-- Modelled from the spec: one step of the CallSession state machine
(§4.3).  Returns the updated session and the state-change events pushed
to the EventBus.  `ended` is terminal: every event is ignored there.
Events that do not match a transition out of the current state leave the
session unchanged and emit nothing. -/
def CallSession.step (caps : Capabilities) (s : CallSession) :
    SessionEvent → CallSession × List StateChange
  | .hangup =>
      match s.state with
      | .ended => (s, [])
      | st =>
          ({ s with state := .ended, endedAt := some s.now, now := s.now + 1 },
           [{ prior := st, next := .ended, atTime := s.now }])
  | .ready =>
      match s.state with
      | .connecting =>
          ({ s with state := .listening, now := s.now + 1 },
           [{ prior := .connecting, next := .listening, atTime := s.now }])
      | _ => (s, [])
  | .transcript text isFinal =>
      match s.state with
      | .listening =>
          if isFinal ∧ text ≠ "" then
            ({ s with state := .thinking
                      turns := s.turns ++
                        [{ speaker := .caller, text := text
                           startedAt := s.now, endedAt := s.now
                           truncated := false }]
                      now := s.now + 1 },
             [{ prior := .listening, next := .thinking, atTime := s.now }])
          else (s, [])
      | _ => (s, [])
  | .vadSustained d =>
      match s.state with
      | .speaking =>
          if s.config.interruptionPolicy.bargeInEnabled ∧
              s.config.interruptionPolicy.minDurationMs ≤ d then
            ({ s with state := .listening
                      bus := s.bus.flush
                      turns := markLastAgentTruncated s.turns
                      interruptionCount := s.interruptionCount + 1
                      now := s.now + 2 },
             [{ prior := .speaking, next := .interrupting, atTime := s.now },
              { prior := .interrupting, next := .listening, atTime := s.now + 1 }])
          else (s, [])
      | _ => (s, [])
  | .engineDone =>
      match s.state with
      | .thinking =>
          let reply := ConversationEngine.respond caps s.config s.turns
          ({ s with state := .speaking
                    turns := s.turns ++
                      [{ speaker := .agent, text := reply
                         startedAt := s.now, endedAt := s.now
                         truncated := false }]
                    now := s.now + 1 },
           [{ prior := .thinking, next := .speaking, atTime := s.now }])
      | _ => (s, [])
  | .playbackDone =>
      match s.state with
      | .speaking =>
          ({ s with state := .listening, now := s.now + 1 },
           [{ prior := .speaking, next := .listening, atTime := s.now }])
      | _ => (s, [])

/-- Run a sequence of events through the state machine, collecting the
emitted state changes in order. -/
def CallSession.steps (caps : Capabilities) (s : CallSession) :
    List SessionEvent → CallSession × List StateChange
  | [] => (s, [])
  | e :: es =>
      let r := s.step caps e
      let r2 := CallSession.steps caps r.1 es
      (r2.1, r.2 ++ r2.2)

/-! ## CallSessionManager, modelled from spec §4.7 -/

/-- Modelled from the spec: the orchestrator error kinds (§7). -/
inductive OrchError
  | capacityExceeded
  | transcriptionUnavailable
  | reasoningUnavailable
  | synthesisUnavailable
  | telephonyDropped
  | configUnavailable
  deriving DecidableEq, Repr

/-- Modelled from the spec: the manager's external inputs (§4.7, §6):
the per-organization concurrent-call limit and the configuration
service's read-only `AgentConfig` fetch by organization. -/
structure ManagerEnv where
  orgLimit : String → Nat
  fetchConfig : String → AgentConfig

/-- Modelled from the spec: the process-wide registry of active sessions
(§4.7), keyed by `callId`. -/
structure CallSessionManager where
  registry : List (String × CallSession)

/-- The empty registry present at process start. -/
def CallSessionManager.empty : CallSessionManager := { registry := [] }

/-- Number of registry entries for a given `callId`. -/
def CallSessionManager.countId (m : CallSessionManager) (callId : String) : Nat :=
  (m.registry.filter (fun p => p.1 = callId)).length

/-- Number of active sessions of an organization (the per-organization
counter guarded by the concurrency cap, §4.7). -/
def CallSessionManager.orgCount (m : CallSessionManager) (orgId : String) : Nat :=
  (m.registry.filter (fun p => p.2.orgId = orgId)).length

/-- No `callId` appears twice in the registry (one session per call
identifier, §4.7). -/
def CallSessionManager.WF (m : CallSessionManager) : Prop :=
  ∀ callId, m.countId callId ≤ 1

/-- Modelled from the spec: `getOrCreate(callId, orgId)` (§4.7):
returns the existing session when the `callId` is already registered
(idempotent registration); otherwise rejects with `CapacityExceeded`
when the organization's concurrent-call limit is reached, and otherwise
creates, registers and returns a fresh session. -/
def CallSessionManager.getOrCreate (env : ManagerEnv) (m : CallSessionManager)
    (callId orgId : String) :
    Except OrchError (CallSession × CallSessionManager) :=
  match m.registry.find? (fun p => p.1 = callId) with
  | some p => .ok (p.2, m)
  | none =>
      if env.orgLimit orgId ≤ m.orgCount orgId then
        .error .capacityExceeded
      else
        let s := CallSession.create callId orgId (env.fetchConfig orgId)
        .ok (s, { registry := (callId, s) :: m.registry })

/-- Repeat `getOrCreate` with the same arguments `n` times, threading the
registry and collecting the returned session references (the linearized
view of `n` concurrent callers, §5: the registry has its own internal
synchronization). -/
def CallSessionManager.getOrCreateN (env : ManagerEnv) (m : CallSessionManager)
    (callId orgId : String) :
    Nat → Except OrchError (List CallSession × CallSessionManager)
  | 0 => .ok ([], m)
  | n + 1 =>
      match m.getOrCreate env callId orgId with
      | .error e => .error e
      | .ok (s, m1) =>
          match CallSessionManager.getOrCreateN env m1 callId orgId n with
          | .error e => .error e
          | .ok (ss, m2) => .ok (s :: ss, m2)

/-! ## Scripted round-trip driver, modelled from spec §8

Feeding a scripted sequence of final transcripts into a session wired to
a deterministic stub reasoning capability: each scripted utterance
arrives as a final transcript, the engine then returns, then playback
completes. -/

/-- The event sequence a script of final caller utterances produces. -/
def scriptEvents (script : List String) : List SessionEvent :=
  script.flatMap (fun t => [.transcript t true, .engineDone, .playbackDone])

/-- A session that has reached `listening` (after `connecting` readiness)
with empty history, as at the start of the round-trip scenario. -/
def listeningSession (cfg : AgentConfig) : CallSession :=
  (CallSession.step { reason := fun _ => "" } (CallSession.create "call-1" "org-1" cfg) .ready).1

/-- Run a script of final caller utterances through a listening session
with the given stub capabilities. -/
def runScript (caps : Capabilities) (cfg : AgentConfig) (script : List String) :
    CallSession :=
  (CallSession.steps caps (listeningSession cfg) (scriptEvents script)).1

/-- The turn history the round-trip scenario is expected to produce,
computed directly from the script, the config and the stub: per non-empty
scripted utterance, one caller turn with the scripted text followed by
one agent turn with the stub's response to the deterministic prompt;
empty final transcripts are ignored. -/
def expectedHistory (caps : Capabilities) (cfg : AgentConfig) :
    List Turn → Nat → List String → List Turn
  | acc, _, [] => acc
  | acc, n, t :: rest =>
      if t = "" then expectedHistory caps cfg acc n rest
      else
        let acc1 := acc ++ [{ speaker := .caller, text := t, startedAt := n
                              endedAt := n, truncated := false }]
        let reply := ConversationEngine.respond caps cfg acc1
        expectedHistory caps cfg
          (acc1 ++ [{ speaker := .agent, text := reply, startedAt := n + 1
                      endedAt := n + 1, truncated := false }])
          (n + 3) rest

/-! ## Theorems -/

/-- C8: for every StatCard whose `change` prop is defined and not strictly
positive — including `change = 0` — the rendered trend badge is the
downward one (`TrendingDown` icon with the error colour) and the displayed
percentage is `|change|`; the upward trend is shown only when `change` is
strictly positive. -/
theorem statCard_trend_c8 (c : Int) :
    (c ≤ 0 → statCardTrendBox (some c) =
      some { icon := .trendingDown, color := .errorMain, percent := c.natAbs }) ∧
    (statCardTrend (some c) = .up ↔ 0 < c) := by
  constructor
  · intro h
    have hc : ¬ (0 : Int) < c := not_lt.mpr h
    by_cases h0 : c = 0 <;>
      simp [statCardTrendBox, statCardTrend, statCardTrendIcon,
        statCardTrendColor, h0, hc]
  · by_cases h0 : c = 0
    · simp [statCardTrend, h0]
    · by_cases hpos : 0 < c <;> simp [statCardTrend, h0, hpos]

/-- Witness for C8 at `change = 0`: zero change renders the downward
badge showing 0%. -/
theorem statCard_trend_c8_witness :
    statCardTrendBox (some 0) =
      some { icon := .trendingDown, color := .errorMain, percent := 0 } :=
  (statCard_trend_c8 0).1 (by decide)

/-- C9: `AuthProvider`'s initial `checkAuth` ends with `isLoading = false`
in every outcome (no stored token, successful user fetch, thrown error),
and in the error outcome the stored tokens are cleared and `user` stays
`null`. -/
theorem authProvider_loading_c9 (tok : Option String) (f : Except String String) :
    (checkAuth tok f).isLoading = false ∧
    (∀ t e, tok = some t → f = .error e →
      (checkAuth tok f).user = none ∧ (checkAuth tok f).tokensCleared = true) := by
  cases tok <;> cases f <;> simp [checkAuth]

/-- Witness for C9 at a stored token and a failing user fetch. -/
theorem authProvider_loading_c9_witness :
    (checkAuth (some "tok") (.error "network")).isLoading = false ∧
    (checkAuth (some "tok") (.error "network")).user = none ∧
    (checkAuth (some "tok") (.error "network")).tokensCleared = true := by
  refine ⟨(authProvider_loading_c9 (some "tok") (.error "network")).1, ?_⟩
  exact (authProvider_loading_c9 (some "tok") (.error "network")).2
    "tok" "network" rfl rfl

/-- C10: with `loading` true the rendered button is disabled regardless of
the `disabled` prop and shows the spinner instead of the children; with
`loading` false or unset, the disabled state equals the `disabled` prop
(undefined coercing to false) and the children are rendered. -/
theorem button_loading_c10 (loading disabled : Option Bool) :
    (loading = some true →
      renderButton loading disabled = { disabled := true, content := .spinner }) ∧
    (loading = none ∨ loading = some false →
      (renderButton loading disabled).disabled = disabled.getD false ∧
      (renderButton loading disabled).content = .childrenContent) := by
  cases loading with
  | none => simp [renderButton]
  | some b => cases b <;> simp [renderButton]

/-- Witness for C10: a loading button with `disabled={false}` is disabled
and shows the spinner; a non-loading one with `disabled={false}` is
enabled and shows the children. -/
theorem button_loading_c10_witness :
    renderButton (some true) (some false) =
      { disabled := true, content := .spinner } ∧
    (renderButton (some false) (some false)).disabled = false ∧
    (renderButton (some false) (some false)).content = .childrenContent := by
  refine ⟨(button_loading_c10 (some true) (some false)).1 rfl, ?_⟩
  simpa using (button_loading_c10 (some false) (some false)).2 (Or.inr rfl)

/-- A step taken in the terminal `ended` state changes nothing and emits
nothing. -/
theorem step_in_ended (caps : Capabilities) (s : CallSession) (e : SessionEvent)
    (h : s.state = .ended) : s.step caps e = (s, []) := by
  cases e <;> simp [CallSession.step, h]

/-- Any event sequence starting in `ended` changes nothing and emits
nothing. -/
theorem steps_in_ended (caps : Capabilities) (s : CallSession)
    (es : List SessionEvent) (h : s.state = .ended) :
    CallSession.steps caps s es = (s, []) := by
  induction es with
  | nil => rfl
  | cons e es ih => simp [CallSession.steps, step_in_ended caps s e h, ih]

/-- C1: along every sequence of transitions the session state stays inside
`{connecting, listening, thinking, speaking, interrupting, ended}`, and
once `ended` is reached no further transition occurs (the session and the
emitted event list are unchanged by any further events). -/
theorem session_state_invariant_c1 (caps : Capabilities) (s : CallSession)
    (es : List SessionEvent) :
    (CallSession.steps caps s es).1.state ∈
      [SessionState.connecting, .listening, .thinking, .speaking,
        .interrupting, .ended] ∧
    (s.state = .ended → CallSession.steps caps s es = (s, [])) := by
  constructor
  · cases h : (CallSession.steps caps s es).1.state <;> simp
  · intro h
    exact steps_in_ended caps s es h

/-- Witness for C1: a concrete ended session ignores a ready signal, a
transcript and a hangup. -/
theorem session_state_invariant_c1_witness :
    CallSession.steps { reason := fun _ => "ok" }
        { CallSession.create "call-9" "org-9"
            { systemPreamble := "p", contextWindowTurns := 4
              interruptionPolicy := { bargeInEnabled := true, minDurationMs := 300 } }
          with state := .ended }
        [.ready, .transcript "hello" true, .hangup] =
      ({ CallSession.create "call-9" "org-9"
            { systemPreamble := "p", contextWindowTurns := 4
              interruptionPolicy := { bargeInEnabled := true, minDurationMs := 300 } }
          with state := .ended }, []) :=
  (session_state_invariant_c1 { reason := fun _ => "ok" } _ _).2 rfl

/-- The bus never resurrects a chunk: once a chunk id is neither pending
nor sent and is below the next sequence number, it stays that way under
every operation sequence. -/
theorem bus_absent_stays_absent (c : Nat) (ops : List BusOp) :
    ∀ b : AudioFrameBus, c ∉ b.pending → c ∉ b.sent → c < b.nextSeq →
      c ∉ (b.applyOps ops).pending ∧ c ∉ (b.applyOps ops).sent ∧
        c < (b.applyOps ops).nextSeq := by
  induction ops with
  | nil =>
      intro b h1 h2 h3
      exact ⟨h1, h2, h3⟩
  | cons op ops ih =>
      intro b h1 h2 h3
      cases op with
      | enqueue =>
          refine ih b.enqueue ?_ h2 (by simp [AudioFrameBus.enqueue]; omega)
          simp [AudioFrameBus.enqueue]
          exact ⟨h1, by omega⟩
      | sendOne =>
          cases hp : b.pending with
          | nil =>
              have : b.sendOne = b := by simp [AudioFrameBus.sendOne, hp]
              rw [AudioFrameBus.applyOps, AudioFrameBus.applyOp, this]
              exact ih b h1 h2 h3
          | cons x rest =>
              have hx : c ≠ x := fun h => h1 (h ▸ (hp ▸ List.mem_cons_self x rest))
              have hrest : c ∉ rest := fun h => h1 (hp ▸ List.mem_cons_of_mem x h)
              refine ih b.sendOne ?_ ?_ ?_
              · simp [AudioFrameBus.sendOne, hp]
                exact hrest
              · simp [AudioFrameBus.sendOne, hp]
                exact ⟨h2, hx⟩
              · simp [AudioFrameBus.sendOne, hp]
                exact h3
      | flush =>
          refine ih b.flush (by simp [AudioFrameBus.flush]) ?_ ?_
          · simp [AudioFrameBus.flush]
            exact h2
          · simp [AudioFrameBus.flush]
            exact h3

/-- C6: after flush-and-discard, a chunk that had been enqueued for
outbound playback but not yet sent is never written to the telephony leg,
whatever sends, submissions and further flushes follow. -/
theorem flush_discard_c6 (b : AudioFrameBus) (c : Nat) (ops : List BusOp)
    (hwf : b.WF) (hpend : c ∈ b.pending) (hsent : c ∉ b.sent) :
    c ∉ ((b.flush).applyOps ops).sent := by
  have h3 : c < b.nextSeq := hwf c hpend
  have h := bus_absent_stays_absent c ops b.flush
    (by simp [AudioFrameBus.flush]) (by simpa [AudioFrameBus.flush] using hsent)
    (by simpa [AudioFrameBus.flush] using h3)
  exact h.2.1

/-- Witness for C6: chunk 1 is pending (chunk 0 already sent) when the
flush fires; chunk 1 never reaches the line across later submissions and
sends. -/
theorem flush_discard_c6_witness :
    1 ∉ ((AudioFrameBus.flush
        { pending := [1], sent := [0], nextSeq := 2, flushCount := 0 }).applyOps
          [.enqueue, .sendOne, .enqueue, .sendOne, .sendOne]).sent :=
  flush_discard_c6 { pending := [1], sent := [0], nextSeq := 2, flushCount := 0 }
    1 [.enqueue, .sendOne, .enqueue, .sendOne, .sendOne]
    (by intro c hc; simp at hc; subst hc; decide) (by simp) (by simp)

/-- C3: a final transcript with non-empty text delivered in `listening`
appends exactly one caller turn carrying that text and emits exactly the
single `listening → thinking` transition; a partial (`isFinal = false`)
transcript never appends a turn, in any state. -/
theorem final_transcript_c3 (caps : Capabilities) (s : CallSession)
    (t : String) (hst : s.state = .listening) (ht : t ≠ "") :
    s.step caps (.transcript t true) =
      ({ s with state := .thinking
                turns := s.turns ++
                  [{ speaker := .caller, text := t, startedAt := s.now
                     endedAt := s.now, truncated := false }]
                now := s.now + 1 },
       [{ prior := .listening, next := .thinking, atTime := s.now }]) ∧
    (∀ s2 : CallSession, ∀ u : String,
      (CallSession.step caps s2 (.transcript u false)).1.turns = s2.turns) := by
  constructor
  · simp [CallSession.step, hst, ht]
  · intro s2 u
    cases h2 : s2.state <;> simp [CallSession.step, h2]

/-- Witness for C3: a concrete listening session receiving the final
transcript "hello" appends one caller turn and moves to thinking. -/
theorem final_transcript_c3_witness :
    CallSession.step { reason := fun _ => "ok" }
        { CallSession.create "call-3" "org-3"
            { systemPreamble := "p", contextWindowTurns := 4
              interruptionPolicy := { bargeInEnabled := true, minDurationMs := 300 } }
          with state := .listening, now := 1 }
        (.transcript "hello" true) =
      ({ CallSession.create "call-3" "org-3"
            { systemPreamble := "p", contextWindowTurns := 4
              interruptionPolicy := { bargeInEnabled := true, minDurationMs := 300 } }
          with state := .thinking
               turns := [{ speaker := .caller, text := "hello", startedAt := 1
                           endedAt := 1, truncated := false }]
               now := 2 },
       [{ prior := .listening, next := .thinking, atTime := 1 }]) :=
  (final_transcript_c3 { reason := fun _ => "ok" } _ "hello" rfl (by decide)).1

/-- Marking the last turn as truncated, when the history ends in an agent
turn, sets that turn's truncation flag and changes nothing else. -/
theorem markLastAgentTruncated_append (h : List Turn) (t0 : Turn)
    (ha : t0.speaker = .agent) :
    markLastAgentTruncated (h ++ [t0]) = h ++ [{ t0 with truncated := true }] := by
  induction h with
  | nil => simp [markLastAgentTruncated, ha]
  | cons x xs ih =>
      cases xs with
      | nil => simp [markLastAgentTruncated, ha]
      | cons y ys => simpa [markLastAgentTruncated] using ih

/-- C4: while `speaking`, sustained caller speech of duration at least
`minDurationMs` drives `speaking → interrupting → listening` — issuing
the flush-and-discard on the bus and marking the in-progress agent turn
truncated — exactly when barge-in is enabled; with barge-in disabled the
same report produces no transition and leaves the session unchanged. -/
theorem barge_in_c4 (caps : Capabilities) (s : CallSession) (d : Nat)
    (hst : s.state = .speaking)
    (hd : s.config.interruptionPolicy.minDurationMs ≤ d) :
    (s.config.interruptionPolicy.bargeInEnabled = true →
      s.step caps (.vadSustained d) =
        ({ s with state := .listening
                  bus := s.bus.flush
                  turns := markLastAgentTruncated s.turns
                  interruptionCount := s.interruptionCount + 1
                  now := s.now + 2 },
         [{ prior := .speaking, next := .interrupting, atTime := s.now },
          { prior := .interrupting, next := .listening, atTime := s.now + 1 }])) ∧
    (s.config.interruptionPolicy.bargeInEnabled = false →
      s.step caps (.vadSustained d) = (s, [])) ∧
    (∀ h0 t0, s.turns = h0 ++ [t0] → t0.speaker = .agent →
      markLastAgentTruncated s.turns = h0 ++ [{ t0 with truncated := true }]) := by
  refine ⟨?_, ?_, ?_⟩
  · intro hb
    simp [CallSession.step, hst, hb, hd]
  · intro hb
    simp [CallSession.step, hst, hb]
  · intro h0 t0 hturns ha
    rw [hturns]
    exact markLastAgentTruncated_append h0 t0 ha

/-- Witness for C4, enabled side: a concrete speaking session with an
in-progress agent turn and a 500 ms sustained-speech report flushes the
bus, truncates the agent turn and lands in listening. -/
theorem barge_in_c4_witness :
    CallSession.step { reason := fun _ => "ok" }
        { CallSession.create "call-4" "org-4"
            { systemPreamble := "p", contextWindowTurns := 4
              interruptionPolicy := { bargeInEnabled := true, minDurationMs := 300 } }
          with state := .speaking
               turns := [{ speaker := .agent, text := "hi", startedAt := 1
                           endedAt := 1, truncated := false }]
               bus := { pending := [0], sent := [], nextSeq := 1, flushCount := 0 }
               now := 2 }
        (.vadSustained 500) =
      ({ CallSession.create "call-4" "org-4"
            { systemPreamble := "p", contextWindowTurns := 4
              interruptionPolicy := { bargeInEnabled := true, minDurationMs := 300 } }
          with state := .listening
               turns := [{ speaker := .agent, text := "hi", startedAt := 1
                           endedAt := 1, truncated := true }]
               bus := { pending := [], sent := [], nextSeq := 1, flushCount := 1 }
               now := 4
               interruptionCount := 1 },
       [{ prior := .speaking, next := .interrupting, atTime := 2 },
        { prior := .interrupting, next := .listening, atTime := 3 }]) := by
  have h := (barge_in_c4 { reason := fun _ => "ok" }
    { CallSession.create "call-4" "org-4"
        { systemPreamble := "p", contextWindowTurns := 4
          interruptionPolicy := { bargeInEnabled := true, minDurationMs := 300 } }
      with state := .speaking
           turns := [{ speaker := .agent, text := "hi", startedAt := 1
                       endedAt := 1, truncated := false }]
           bus := { pending := [0], sent := [], nextSeq := 1, flushCount := 0 }
           now := 2 }
    500 rfl (by decide)).1 rfl
  simpa [markLastAgentTruncated, AudioFrameBus.flush] using h

/-- A `callId` the registry lookup misses has count zero. -/
theorem countId_eq_zero_of_find?_none (m : CallSessionManager) (callId : String)
    (h : m.registry.find? (fun p => p.1 = callId) = none) :
    m.countId callId = 0 := by
  rw [CallSessionManager.countId, List.length_eq_zero, List.filter_eq_nil_iff]
  intro p hp
  simpa using List.find?_eq_none.mp h p hp

/-- Registering one entry bumps exactly its own `callId` count. -/
theorem countId_cons (entry : String × CallSession) (m : CallSessionManager)
    (cid : String) :
    CallSessionManager.countId { registry := entry :: m.registry } cid =
      (if entry.1 = cid then 1 else 0) + m.countId cid := by
  by_cases h : entry.1 = cid
  · simp [CallSessionManager.countId, List.filter_cons, h]
    omega
  · simp [CallSessionManager.countId, List.filter_cons, h]

/-- `getOrCreate` is a fixed point on the registry it returns: replaying
it with the same arguments returns the same session and registry. -/
theorem getOrCreate_fixed (env : ManagerEnv) (m : CallSessionManager)
    (callId orgId : String) (s : CallSession) (m1 : CallSessionManager)
    (h : m.getOrCreate env callId orgId = .ok (s, m1)) :
    m1.getOrCreate env callId orgId = .ok (s, m1) := by
  rw [CallSessionManager.getOrCreate] at h
  cases hf : m.registry.find? (fun p => p.1 = callId) with
  | some p =>
      rw [hf] at h
      simp only [Except.ok.injEq, Prod.mk.injEq] at h
      obtain ⟨hs, hm⟩ := h
      subst hs
      subst hm
      rw [CallSessionManager.getOrCreate, hf]
  | none =>
      rw [hf] at h
      by_cases hcap : env.orgLimit orgId ≤ m.orgCount orgId
      · simp [hcap] at h
      · simp only [hcap, if_false] at h
        simp only [Except.ok.injEq, Prod.mk.injEq] at h
        obtain ⟨hs, hm⟩ := h
        subst hs
        subst hm
        simp [CallSessionManager.getOrCreate]

/-- Replaying `getOrCreate` `n` times from its fixed point keeps handing
back the same session reference. -/
theorem getOrCreateN_fixed (env : ManagerEnv) (m1 : CallSessionManager)
    (callId orgId : String) (s : CallSession)
    (h : m1.getOrCreate env callId orgId = .ok (s, m1)) :
    ∀ n, CallSessionManager.getOrCreateN env m1 callId orgId n =
      .ok (List.replicate n s, m1) := by
  intro n
  induction n with
  | zero => rfl
  | succ n ih =>
      simp [CallSessionManager.getOrCreateN, h, ih, List.replicate_succ]

/-- C2: with a well-formed registry (at most one session per `callId`), a
successful `getOrCreate` leaves exactly one session registered under the
`callId`, keeps the registry well-formed, and calling it `n + 1` times in
sequence (the linearization of concurrent callers) yields `n + 1`
references to that single session. -/
theorem getOrCreate_idempotent_c2 (env : ManagerEnv) (m : CallSessionManager)
    (callId orgId : String) (s : CallSession) (m1 : CallSessionManager)
    (hwf : m.WF) (h : m.getOrCreate env callId orgId = .ok (s, m1)) :
    m1.countId callId = 1 ∧ m1.WF ∧
    ∀ n, CallSessionManager.getOrCreateN env m callId orgId (n + 1) =
      .ok (List.replicate (n + 1) s, m1) := by
  have hfix := getOrCreate_fixed env m callId orgId s m1 h
  have hrep : ∀ n, CallSessionManager.getOrCreateN env m callId orgId (n + 1) =
      .ok (List.replicate (n + 1) s, m1) := by
    intro n
    simp [CallSessionManager.getOrCreateN, h,
      getOrCreateN_fixed env m1 callId orgId s hfix n, List.replicate_succ]
  rw [CallSessionManager.getOrCreate] at h
  cases hf : m.registry.find? (fun p => p.1 = callId) with
  | some p =>
      rw [hf] at h
      simp only [Except.ok.injEq, Prod.mk.injEq] at h
      obtain ⟨hs, hm⟩ := h
      subst hm
      have hmem : p ∈ m.registry := List.mem_of_find?_eq_some hf
      have hpid : p.1 = callId := by simpa using List.find?_some hf
      have hpos : 0 < m.countId callId := by
        rw [CallSessionManager.countId]
        refine List.length_pos.mpr ?_
        intro hnil
        have : p ∈ m.registry.filter (fun p => p.1 = callId) :=
          List.mem_filter.mpr ⟨hmem, by simpa using hpid⟩
        rw [hnil] at this
        exact List.not_mem_nil p this
      exact ⟨le_antisymm (hwf callId) hpos, hwf, hrep⟩
  | none =>
      rw [hf] at h
      by_cases hcap : env.orgLimit orgId ≤ m.orgCount orgId
      · simp [hcap] at h
      · simp only [hcap, if_false] at h
        simp only [Except.ok.injEq, Prod.mk.injEq] at h
        obtain ⟨hs, hm⟩ := h
        have hzero : m.countId callId = 0 :=
          countId_eq_zero_of_find?_none m callId hf
        constructor
        · rw [← hm, countId_cons]
          simp [hzero]
        · constructor
          · intro cid
            rw [← hm, countId_cons]
            by_cases hcid : callId = cid
            · subst hcid
              simp [hzero]
            · simpa [hcid] using hwf cid
          · exact hrep

/-- Witness for C2: three sequential `getOrCreate` calls for the same
fresh `callId` on an empty registry hand back three references to the one
created session, which is registered exactly once. -/
theorem getOrCreate_idempotent_c2_witness :
    CallSessionManager.countId
        { registry := [("call-2",
            CallSession.create "call-2" "org-2"
              { systemPreamble := "p", contextWindowTurns := 4
                interruptionPolicy :=
                  { bargeInEnabled := true, minDurationMs := 300 } })] }
        "call-2" = 1 ∧
    CallSessionManager.getOrCreateN
        { orgLimit := fun _ => 2
          fetchConfig := fun _ =>
            { systemPreamble := "p", contextWindowTurns := 4
              interruptionPolicy :=
                { bargeInEnabled := true, minDurationMs := 300 } } }
        CallSessionManager.empty "call-2" "org-2" 3 =
      .ok (List.replicate 3
            (CallSession.create "call-2" "org-2"
              { systemPreamble := "p", contextWindowTurns := 4
                interruptionPolicy :=
                  { bargeInEnabled := true, minDurationMs := 300 } }),
           { registry := [("call-2",
              CallSession.create "call-2" "org-2"
                { systemPreamble := "p", contextWindowTurns := 4
                  interruptionPolicy :=
                    { bargeInEnabled := true, minDurationMs := 300 } })] }) := by
  have h := getOrCreate_idempotent_c2
    { orgLimit := fun _ => 2
      fetchConfig := fun _ =>
        { systemPreamble := "p", contextWindowTurns := 4
          interruptionPolicy := { bargeInEnabled := true, minDurationMs := 300 } } }
    CallSessionManager.empty "call-2" "org-2"
    (CallSession.create "call-2" "org-2"
      { systemPreamble := "p", contextWindowTurns := 4
        interruptionPolicy := { bargeInEnabled := true, minDurationMs := 300 } })
    { registry := [("call-2",
        CallSession.create "call-2" "org-2"
          { systemPreamble := "p", contextWindowTurns := 4
            interruptionPolicy := { bargeInEnabled := true, minDurationMs := 300 } })] }
    (by intro cid; simp [CallSessionManager.countId, CallSessionManager.empty])
    rfl
  exact ⟨h.1, h.2.2 2⟩

/-- C5: when an organization's concurrent-call limit is already reached,
`getOrCreate` for a `callId` not yet registered fails synchronously with
`CapacityExceeded`; no session value is produced, so the caller's
registry and per-organization counts are untouched. -/
theorem capacity_exceeded_c5 (env : ManagerEnv) (m : CallSessionManager)
    (callId orgId : String)
    (hnew : m.registry.find? (fun p => p.1 = callId) = none)
    (hcap : env.orgLimit orgId ≤ m.orgCount orgId) :
    m.getOrCreate env callId orgId = .error .capacityExceeded := by
  rw [CallSessionManager.getOrCreate, hnew, if_pos hcap]

/-- Witness for C5: with an org cap of 1 and one session of that org
already registered, a `getOrCreate` for a new `callId` is rejected. -/
theorem capacity_exceeded_c5_witness :
    CallSessionManager.getOrCreate
        { orgLimit := fun _ => 1
          fetchConfig := fun _ =>
            { systemPreamble := "p", contextWindowTurns := 4
              interruptionPolicy :=
                { bargeInEnabled := true, minDurationMs := 300 } } }
        { registry := [("call-a",
            CallSession.create "call-a" "org-5"
              { systemPreamble := "p", contextWindowTurns := 4
                interruptionPolicy :=
                  { bargeInEnabled := true, minDurationMs := 300 } })] }
        "call-b" "org-5" = .error .capacityExceeded :=
  capacity_exceeded_c5 _ _ "call-b" "org-5" (by rfl) (by decide)

/-- One scripted utterance contributes its final transcript, the engine
round trip and the playback completion. -/
theorem scriptEvents_cons (t : String) (rest : List String) :
    scriptEvents (t :: rest) =
      .transcript t true :: .engineDone :: .playbackDone :: scriptEvents rest := by
  simp [scriptEvents]

/-- The session resulting from a sequence of events is the one obtained by
taking one step and running the rest. -/
theorem steps_cons_fst (caps : Capabilities) (s : CallSession)
    (e : SessionEvent) (es : List SessionEvent) :
    (CallSession.steps caps s (e :: es)).1 =
      (CallSession.steps caps (s.step caps e).1 es).1 := by
  simp [CallSession.steps]

/-- Running a script from any listening session produces exactly the turn
history computed by `expectedHistory` from the session's current history,
clock, config and stub — the inductive core of the round-trip property. -/
theorem steps_script_turns (caps : Capabilities) (cfg : AgentConfig)
    (script : List String) :
    ∀ s : CallSession, s.state = .listening → s.config = cfg →
      (CallSession.steps caps s (scriptEvents script)).1.turns =
        expectedHistory caps cfg s.turns s.now script := by
  induction script with
  | nil =>
      intro s h1 h2
      simp [scriptEvents, CallSession.steps, expectedHistory]
  | cons t rest ih =>
      intro s h1 h2
      by_cases ht : t = ""
      · subst ht
        have st1 : (s.step caps (.transcript "" true)).1 = s := by
          simp [CallSession.step, h1]
        have st2 : (s.step caps .engineDone).1 = s := by
          simp [CallSession.step, h1]
        have st3 : (s.step caps .playbackDone).1 = s := by
          simp [CallSession.step, h1]
        rw [scriptEvents_cons, steps_cons_fst, st1, steps_cons_fst, st2,
          steps_cons_fst, st3, expectedHistory, if_pos rfl]
        exact ih s h1 h2
      · have st1 : (s.step caps (.transcript t true)).1 =
            { s with state := .thinking
                     turns := s.turns ++
                       [{ speaker := .caller, text := t, startedAt := s.now
                          endedAt := s.now, truncated := false }]
                     now := s.now + 1 } := by
          simp [CallSession.step, h1, ht]
        have st2 : (CallSession.step caps
            { s with state := .thinking
                     turns := s.turns ++
                       [{ speaker := .caller, text := t, startedAt := s.now
                          endedAt := s.now, truncated := false }]
                     now := s.now + 1 } .engineDone).1 =
            { s with state := .speaking
                     turns := (s.turns ++
                       [{ speaker := .caller, text := t, startedAt := s.now
                          endedAt := s.now, truncated := false }]) ++
                       [{ speaker := .agent
                          text := ConversationEngine.respond caps s.config
                            (s.turns ++
                              [{ speaker := .caller, text := t, startedAt := s.now
                                 endedAt := s.now, truncated := false }])
                          startedAt := s.now + 1, endedAt := s.now + 1
                          truncated := false }]
                     now := s.now + 1 + 1 } := by
          simp [CallSession.step]
        have st3 : (CallSession.step caps
            { s with state := .speaking
                     turns := (s.turns ++
                       [{ speaker := .caller, text := t, startedAt := s.now
                          endedAt := s.now, truncated := false }]) ++
                       [{ speaker := .agent
                          text := ConversationEngine.respond caps s.config
                            (s.turns ++
                              [{ speaker := .caller, text := t, startedAt := s.now
                                 endedAt := s.now, truncated := false }])
                          startedAt := s.now + 1, endedAt := s.now + 1
                          truncated := false }]
                     now := s.now + 1 + 1 } .playbackDone).1 =
            { s with state := .listening
                     turns := (s.turns ++
                       [{ speaker := .caller, text := t, startedAt := s.now
                          endedAt := s.now, truncated := false }]) ++
                       [{ speaker := .agent
                          text := ConversationEngine.respond caps s.config
                            (s.turns ++
                              [{ speaker := .caller, text := t, startedAt := s.now
                                 endedAt := s.now, truncated := false }])
                          startedAt := s.now + 1, endedAt := s.now + 1
                          truncated := false }]
                     now := s.now + 1 + 1 + 1 } := by
          simp [CallSession.step]
        have ihx := ih
          { s with state := .listening
                   turns := (s.turns ++
                     [{ speaker := .caller, text := t, startedAt := s.now
                        endedAt := s.now, truncated := false }]) ++
                     [{ speaker := .agent
                        text := ConversationEngine.respond caps s.config
                          (s.turns ++
                            [{ speaker := .caller, text := t, startedAt := s.now
                               endedAt := s.now, truncated := false }])
                        startedAt := s.now + 1, endedAt := s.now + 1
                        truncated := false }]
                   now := s.now + 1 + 1 + 1 } rfl h2
        rw [scriptEvents_cons, steps_cons_fst, st1, steps_cons_fst, st2,
          steps_cons_fst, st3, ihx, expectedHistory, if_neg ht]
        simp [h2]

/-- C7: with a deterministic stub reasoning capability, the turn history a
session produces from a scripted sequence of final transcripts is exactly
`expectedHistory`, a function of the script, config and stub alone — so
any two runs fed the same script produce identical turn histories. -/
theorem roundtrip_deterministic_c7 (caps : Capabilities) (cfg : AgentConfig)
    (script : List String) :
    (runScript caps cfg script).turns = expectedHistory caps cfg [] 1 script :=
  steps_script_turns caps cfg script (listeningSession cfg) rfl rfl

end VoiceAgent
